import Mathlib

/-!
Shallow embedding of `src/design.py` (Latin-hypercube design generation).

Conventions of the embedding:

* Python/numpy floating-point values are modelled by the elements of an
  arbitrary linear ordered field `α` (instantiated at `ℚ` for concrete
  evaluations).  Decimal literals of the source are embedded as the exact
  rationals they denote (for example `0.3` becomes `3/10`,
  `3.141592` becomes `3141592/1000000`).
* The two range endpoints that the source computes as fourth roots
  (`0.0002**.25` and `(0.2*0.3)**.25`, line 133) are irrational, so the
  parameter-space table takes them as explicit arguments `a4min a4max : α`;
  the lemma `area_fourth_endpoints_real` below shows that the genuine real
  values satisfy the positivity/ordering hypotheses used by the theorems
  (for nonnegative `x`, `x ** 0.25 = Real.sqrt (Real.sqrt x)`).
* Files are modelled by the sequence of records written into them, in
  order, not by their byte-level rendering: a design-file line is the list
  of comma-separated cells of that line, a range-file row is the
  `(param, min, max)` triple written on that line.  Python `str`
  formatting of a float round-trips exactly, so value-level equality is
  the faithful notion for the round-trip claims.
* A Python `dict` (Python ≥ 3.7 insertion order) is an association list;
  `dict.pop` removes the entry keeping the order of the rest, adding a new
  key appends it at the end.
* Exceptions are modelled with `Except PyError`.
-/

namespace DesignPy

/-- Python exception values that the translated code can raise:
`KeyError` with an integer key (the beam-energy lookups), `KeyError` with a
string key (dictionary item access), `TypeError`, and
`subprocess.CalledProcessError cmd returncode` (raised by
`subprocess.run(..., check=True)`; its payload is only the command list and
the exit status). -/
inductive PyError where
  | keyError : Int → PyError
  | keyErrorStr : String → PyError
  | typeErr : PyError
  | calledProcessError : List String → Int → PyError
deriving DecidableEq, Repr

/-- Value stored in the per-point keyword dictionary and written as one
comma-separated cell of the design-points file: a finite numpy float
(modelled exactly in `α`), a Python string (`projectiles`), or one of the
non-finite IEEE values that numpy float64 arithmetic produces instead of
raising (`inf`, `-inf`, `nan`). -/
inductive Cell (α : Type) where
  | num : α → Cell α
  | txt : String → Cell α
  | posInf : Cell α
  | negInf : Cell α
  | nan : Cell α
deriving DecidableEq, Repr

section Field

variable {α : Type} [LinearOrderedField α]

/-- numpy float64 division (the operands on line 265 of the source are
numpy scalars): dividing a finite numerator by `0.0` emits a
`RuntimeWarning` and evaluates to `inf`, `-inf` or `nan` according to the
sign of the numerator — it does not raise an exception. -/
def npDiv (x y : α) : Cell α :=
  if y = 0 then
    (if 0 < x then Cell.posInf else if x < 0 then Cell.negInf else Cell.nan)
  else Cell.num (x / y)

/-- Python dict item access `d[k]`: the stored value, or `KeyError k`. -/
def dictGet (d : List (String × Cell α)) (k : String) : Except PyError (Cell α) :=
  match d.find? (fun p => p.1 == k) with
  | some p => Except.ok p.2
  | none => Except.error (PyError.keyErrorStr k)

/-- Python `d.pop(k)`: the stored value together with the dictionary with
that entry removed (the order of the remaining entries is kept), or
`KeyError k`. -/
def dictPop (d : List (String × Cell α)) (k : String) :
    Except PyError (Cell α × List (String × Cell α)) :=
  match d.find? (fun p => p.1 == k) with
  | some p => Except.ok (p.2, d.filter (fun q => !(q.1 == k)))
  | none => Except.error (PyError.keyErrorStr k)

/-- Extraction of a finite numeric value from a cell, as Python arithmetic
on a dictionary entry would (a non-numeric operand would raise
`TypeError`; in the translated flows the operand is always numeric). -/
def asNum : Cell α → Except PyError α
  | Cell.num x => Except.ok x
  | _ => Except.error PyError.typeErr

end Field

/-! ### `generate_lhs` (source lines 32–61)

The function shells out to `R --slave`, piping it a script built by string
formatting from `(seed, npoints, ndim)`, with `check=True`; it then parses
the captured stdout into a float matrix.  The R process itself is not part
of the repository. -/

/-- Script piped to the R process, exactly as the source formats it
(line 47–51): the `.format(seed, npoints, ndim)` call on the literal
template, with Python `str` of the integers substituted. -/
def rScript (seed npoints ndim : Int) : String :=
  "\n        library(\x27lhs\x27)\n        set.seed(" ++ toString seed ++
  ")\n        write.table(maximinLHS(" ++ toString npoints ++ ", " ++ toString ndim ++
  "), col.names=FALSE, row.names=FALSE)\n        "

section Field

variable {α : Type} [LinearOrderedField α]

/-- Modelled from the spec: the external `R` process run on `rScript`.
The repository does not contain the R `lhs` package; per the spec
(§4.1, §8) the sampler is a deterministic function of
`(npoints, ndim, seed)` returning an `npoints × ndim` matrix with entries
in `[0,1)`, and `maximinLHS` is documented to stop with an error (so the
process exits with status 1) unless `npoints ≥ 1` and `ndim ≥ 1`.  The
concrete entries used here — the stratum midpoints `(2*i+1)/(2*npoints)`
of row `i` — are an arbitrary deterministic stand-in: no claim below
depends on the particular values, only on determinism and on the failure
behaviour. -/
def maximinLHS_R (npoints ndim seed : Int) : Except Int (List (List α)) :=
  if 1 ≤ npoints ∧ 1 ≤ ndim then
    Except.ok ((List.range npoints.toNat).map (fun i =>
      (List.range ndim.toNat).map (fun _ =>
        ((2 * i + 1 : ℕ) : α) / ((2 * npoints.toNat : ℕ) : α))))
  else Except.error 1

/-- Translation of `generate_lhs` (source lines 32–61): no input
validation is performed by the Python code; the R process is run on
`rScript seed npoints ndim`, a nonzero exit status is converted by
`check=True` into `CalledProcessError(cmd, returncode)` whose payload
names only the command `['R', '--slave']` and the status — not the
offending `npoints`/`ndim` — and on success the stdout table is the
returned matrix. -/
def generate_lhs (npoints ndim seed : Int) : Except PyError (List (List α)) :=
  match maximinLHS_R (α := α) npoints ndim seed with
  | Except.error code => Except.error (PyError.calledProcessError ["R", "--slave"] code)
  | Except.ok m => Except.ok m

end Field

/-! ### `Design.__init__` (source lines 94–197) -/

/-- Lookup table for the first parameter (`norm`) range, keyed by beam
energy (source lines 106–109); only `2760` is present (the `5020` entry is
commented out).  Item access on a missing key raises `KeyError`. -/
def normRangeTable {α : Type} [LinearOrderedField α] (beamEnergy : Int) : Option (α × α) :=
  if beamEnergy = 2760 then some (10, 18) else none

/-- Beam-energy → inelastic nucleon cross section lookup used inside
`write_files` (source lines 257–262). -/
def crossSectionTable {α : Type} [LinearOrderedField α] (beamEnergy : Int) : Option α :=
  if beamEnergy = 200 then some (42/10)
  else if beamEnergy = 2760 then some (64/10)
  else if beamEnergy = 5020 then some (70/10)
  else none

/-- Keys of the active (uncommented) parameters, in declaration order
(source lines 112–142). -/
def designKeys : List String :=
  ["norm", "fluct_k", "nucleon_width", "tau_R", "alpha",
   "eta_over_s_at_kink", "zeta_over_s_max", "zeta_over_s_T_peak_in_GeV",
   "zeta_over_s_area_fourth", "zeta_over_s_lambda_asymm"]

section Field

variable {α : Type} [LinearOrderedField α]

/-- Ranges `(min, max)` of the active parameters, in declaration order
(source lines 112–142), given the resolved norm range `nr` and the two
fourth-root endpoints `a4min = 0.0002**.25` and `a4max = (0.2*0.3)**.25`
of `zeta_over_s_area_fourth`.  The display-label column of the source
table (an unused local variable) is omitted. -/
def designRangeTable (nr : α × α) (a4min a4max : α) : List (α × α) :=
  [nr, (3/10, 3), (4/10, 15/10), (5/10, 2), (-(5/10), 0),
   (1/100, 25/100), (0, 3/10), (1/10, 5/10), (a4min, a4max), (-(8/10), 8/10)]

/-- Per-column affine rescale of the unit sample (source line 195,
`self.array = lhsmin + (self.max - lhsmin)*generate_lhs(...)`, numpy
broadcasting applied row-wise; `lhsmin` is a copy of `self.min` since the
per-parameter floor overrides of lines 183–189 are commented out). -/
def affineScale (lhsmin mx : List α) (lhs : List (List α)) : List (List α) :=
  lhs.map (fun urow =>
    List.zipWith (fun p u => p.1 + (p.2 - p.1) * u) (lhsmin.zip mx) urow)

/-- Default-seed resolution (source lines 192–193): a caller-supplied seed
is used as given; otherwise the fixed constant `751783496` for the
validation design and `450829120` for the main design. -/
def designSeed (seed : Option Int) (validation : Bool) : Int :=
  match seed with
  | some s => s
  | none => if validation then 751783496 else 450829120

/-- State of a constructed `Design` object: its public attributes after
`__init__` (source lines 94–197).  `type` is the string
`'validation'`/`'main'`; `keys`, `range`, `min`, `max` are the parameter
table columns; `points` the design-point names `str(i)`; `array` the
rescaled sample matrix. -/
structure DesignT (α : Type) where
  system : String
  projectiles : String
  target : String
  beam_energy : Int
  type : String
  keys : List String
  range : List (α × α)
  ndim : Nat
  min : List α
  max : List α
  points : List String
  seed : Int
  array : List (List α)
deriving DecidableEq, Repr

/-- Body of `Design.__init__` with the sampler result supplied as the
argument `lhsRes`: the norm-range lookup (line 109, raising `KeyError` on
an unrecognized beam energy) happens before the parameter table is
assembled and before the sampler result is examined, so a lookup failure
is raised whatever the sampler would do.  `system` is the triple
`(projectiles, target, beam_energy)` unpacked on line 98. -/
def designInitWith (a4min a4max : α) (system : String × String × Int) (npoints : Nat)
    (validation : Bool) (seed : Option Int) (lhsRes : Except PyError (List (List α))) :
    Except PyError (DesignT α) :=
  match normRangeTable (α := α) system.2.2 with
  | none => Except.error (PyError.keyError system.2.2)
  | some nr =>
    let rng := designRangeTable nr a4min a4max
    let mins := rng.map (fun p => p.1)
    let maxs := rng.map (fun p => p.2)
    let lhsmin := mins
    match lhsRes with
    | Except.error e => Except.error e
    | Except.ok lhs =>
      Except.ok
        { system := system.1 ++ system.2.1 ++ "-" ++ toString system.2.2
          projectiles := system.1
          target := system.2.1
          beam_energy := system.2.2
          type := if validation then "validation" else "main"
          keys := designKeys
          range := rng
          ndim := rng.length
          min := mins
          max := maxs
          points := (List.range npoints).map (fun i => toString i)
          seed := designSeed seed validation
          array := affineScale lhsmin maxs lhs }

/-- Translation of `Design.__init__` (source lines 94–197): the design is
built from the sampler output `generate_lhs(npoints, self.ndim, seed)`
with `self.ndim = 10` (the length of the active parameter table) and the
resolved seed. -/
def designInit (a4min a4max : α) (system : String × String × Int) (npoints : Nat)
    (validation : Bool) (seed : Option Int) : Except PyError (DesignT α) :=
  designInitWith a4min a4max system npoints validation seed
    (generate_lhs (npoints : Int) 10 (designSeed seed validation))

end Field

/-! ### `Design.write_files` (source lines 230–335) -/

/-- Arguments of the call to the external collaborator
`write_module_inputs` (source lines 281–318), one call per design point.
Crucially, both `projectile` and `target` are passed `self.projectiles`
(lines 286–287); `self.target` is not used. -/
structure ModuleCall (α : Type) where
  outdir : String
  design_point_id : String
  projectile : String
  target : String
  sqrts : Int
  inel_nucleon_cross_section : Cell α
  trento_normalization : Cell α
  trento_fluctuation_k : Cell α
  trento_nucleon_width : Cell α
  tau_R : Cell α
  alpha : Cell α
  eta_over_s_at_kink : Cell α
  zeta_over_s_max : Cell α
  zeta_over_s_width_in_GeV : Cell α
  zeta_over_s_T_peak_in_GeV : Cell α
  zeta_over_s_lambda_asymm : Cell α
deriving DecidableEq, Repr

section Field

variable {α : Type} [LinearOrderedField α]

/-- One iteration of the design-point loop (source lines 251–324), up to
the write of the point line: builds the keyword dictionary
`dict(zip(self.keys, row), projectiles=..., cross_section=table[beam_energy])`
(the cross-section lookup raises `KeyError(beam_energy)` on a missing
key), then executes
`kwargs.update(zeta_over_s_width_in_GeV = 2./3.141592*(kwargs.pop(...))**4/kwargs[...])`
(left-to-right: the `pop` of `zeta_over_s_area_fourth` precedes the item
access of `zeta_over_s_max`; the popped entry disappears from the
dictionary and the new key is appended at the end), calls
`write_module_inputs`, and yields the line written to the design-points
file: `str(point)` followed by `str(kwargs[key])` for each remaining key
in insertion order. -/
def processPoint (keys : List String) (projectiles : String) (beamEnergy : Int)
    (outdir : String) (point : String) (row : List α) :
    Except PyError (ModuleCall α × List (Cell α)) := do
  let cs ← (match crossSectionTable (α := α) beamEnergy with
    | some c => Except.ok c
    | none => Except.error (PyError.keyError beamEnergy))
  let kwargs0 := keys.zip (row.map Cell.num) ++
    [("projectiles", Cell.txt projectiles), ("cross_section", Cell.num cs)]
  let popped ← dictPop kwargs0 "zeta_over_s_area_fourth"
  let a ← asNum popped.1
  let zc ← dictGet popped.2 "zeta_over_s_max"
  let z ← asNum zc
  let kwargs := popped.2 ++
    [("zeta_over_s_width_in_GeV", npDiv (2 / (3141592/1000000 : α) * a ^ 4) z)]
  let vCross ← dictGet kwargs "cross_section"
  let vNorm ← dictGet kwargs "norm"
  let vFluct ← dictGet kwargs "fluct_k"
  let vNw ← dictGet kwargs "nucleon_width"
  let vTauR ← dictGet kwargs "tau_R"
  let vAlpha ← dictGet kwargs "alpha"
  let vKink ← dictGet kwargs "eta_over_s_at_kink"
  let vZmax ← dictGet kwargs "zeta_over_s_max"
  let vWidth ← dictGet kwargs "zeta_over_s_width_in_GeV"
  let vTpeak ← dictGet kwargs "zeta_over_s_T_peak_in_GeV"
  let vLambda ← dictGet kwargs "zeta_over_s_lambda_asymm"
  pure
    ({ outdir := outdir
       design_point_id := point
       projectile := projectiles
       target := projectiles
       sqrts := beamEnergy
       inel_nucleon_cross_section := vCross
       trento_normalization := vNorm
       trento_fluctuation_k := vFluct
       trento_nucleon_width := vNw
       tau_R := vTauR
       alpha := vAlpha
       eta_over_s_at_kink := vKink
       zeta_over_s_max := vZmax
       zeta_over_s_width_in_GeV := vWidth
       zeta_over_s_T_peak_in_GeV := vTpeak
       zeta_over_s_lambda_asymm := vLambda },
     Cell.txt point :: kwargs.map (fun p => p.2))

/-- Loop of source lines 251–324 over `zip(self.points, self.array)`: the
lines appended to the design-points file (after the header), the
`write_module_inputs` calls made, and the first uncaught exception if one
is raised — lines and calls made before the exception remain written
(partial artifact). -/
def writeLoop (keys : List String) (projectiles : String) (beamEnergy : Int)
    (outdir : String) : List (String × List α) →
    List (List (Cell α)) × List (ModuleCall α) × Option PyError
  | [] => ([], [], none)
  | (point, row) :: rest =>
    match processPoint keys projectiles beamEnergy outdir point row with
    | Except.error e => ([], [], some e)
    | Except.ok (call, line) =>
      let r := writeLoop keys projectiles beamEnergy outdir rest
      (line :: r.1, call :: r.2.1, r.2.2)

/-- Result of `Design.write_files`: the design-points file content (header
line then one line per completed point), the collaborator calls, the
range-file content (written only after the design-point loop finished
without an exception, source lines 328–335), and the exception that
aborted the run, if any. -/
structure WriteResult (α : Type) where
  designLines : List (List (Cell α))
  calls : List (ModuleCall α)
  rangeHeader : Option String
  rangeRows : List (String × α × α)
  err : Option PyError
deriving DecidableEq, Repr

/-- Translation of `Design.write_files` (source lines 230–335): the header
`idx,<key>,...` over `self.keys` is written first; then the per-point
loop; then (only if no exception escaped) the range file with header
`param,min,max` and one `(self.keys[i], self.range[i][0], self.range[i][1])`
row per key. -/
def write_files (d : DesignT α) (basedir : String) : WriteResult α :=
  let outdir := basedir ++ "/" ++ d.type ++ "/" ++ d.system
  let r := writeLoop d.keys d.projectiles d.beam_energy outdir (d.points.zip d.array)
  { designLines := (Cell.txt "idx" :: d.keys.map Cell.txt) :: r.1
    calls := r.2.1
    rangeHeader := if r.2.2 = none then some "param,min,max" else none
    rangeRows := if r.2.2 = none then
        List.zipWith (fun k p => (k, p.1, p.2)) d.keys d.range else []
    err := r.2.2 }

end Field

/-! ### Helper characterizations -/

section Field

variable {α : Type} [LinearOrderedField α]

/-- Design-point names `[str(i) for i in range(npoints)]` (source
line 161). -/
def designPoints (npoints : Nat) : List String :=
  (List.range npoints).map (fun i => toString i)

/-- Column of parameter minima of the resolved (beam energy 2760) table. -/
def mkMins (a4min a4max : α) : List α :=
  (designRangeTable (10, 18) a4min a4max).map (fun p => p.1)

/-- Column of parameter maxima of the resolved (beam energy 2760) table. -/
def mkMaxs (a4min a4max : α) : List α :=
  (designRangeTable (10, 18) a4min a4max).map (fun p => p.2)

/-- Scaled design array of a successful `__init__` on sampler output `m`. -/
def mkArray (a4min a4max : α) (m : List (List α)) : List (List α) :=
  affineScale (mkMins a4min a4max) (mkMaxs a4min a4max) m

/-- The design record that a successful `__init__` produces (beam energy
2760 is then the only possibility, so the norm range is `(10, 18)`). -/
def mkDesign (a4min a4max : α) (system : String × String × Int) (npoints : Nat)
    (validation : Bool) (seed : Option Int) (m : List (List α)) : DesignT α :=
  { system := system.1 ++ system.2.1 ++ "-" ++ toString system.2.2
    projectiles := system.1
    target := system.2.1
    beam_energy := system.2.2
    type := if validation then "validation" else "main"
    keys := designKeys
    range := designRangeTable (10, 18) a4min a4max
    ndim := (designRangeTable ((10 : α), 18) a4min a4max).length
    min := mkMins a4min a4max
    max := mkMaxs a4min a4max
    points := designPoints npoints
    seed := designSeed seed validation
    array := mkArray a4min a4max m }

theorem designInitWith_ok_iff {a4min a4max : α} {sys : String × String × Int}
    {npts : Nat} {val : Bool} {seed : Option Int} {m : List (List α)} {d : DesignT α} :
    designInitWith a4min a4max sys npts val seed (Except.ok m) = Except.ok d ↔
      (sys.2.2 = 2760 ∧ d = mkDesign a4min a4max sys npts val seed m) := by
  by_cases h : sys.2.2 = 2760 <;>
    simp [designInitWith, normRangeTable, h, mkDesign, mkMins, mkMaxs, mkArray,
      designPoints, eq_comm]

theorem designInitWith_err_of_bad_energy {a4min a4max : α} {sys : String × String × Int}
    {npts : Nat} {val : Bool} {seed : Option Int}
    (lhsRes : Except PyError (List (List α))) (h : sys.2.2 ≠ 2760) :
    designInitWith a4min a4max sys npts val seed lhsRes =
      Except.error (PyError.keyError sys.2.2) := by
  simp [designInitWith, normRangeTable, h]

end Field

/-! ### Evaluation of the per-point loop body on a well-formed row -/

section Field

variable {α : Type} [LinearOrderedField α]

/-- Derived-width cell: `2./3.141592 * v8**4 / v6` under numpy float64
division, where `v8` is the sampled `zeta_over_s_area_fourth` value and
`v6` the sampled `zeta_over_s_max` value. -/
def widthCell (v6 v8 : α) : Cell α :=
  npDiv (2 / (3141592/1000000 : α) * v8 ^ 4) v6

/-- Cells of the design-file line of one point with sampled row
`[v0, …, v9]`: the point name, the nine surviving sampled values in key
insertion order (`zeta_over_s_area_fourth`, index 8, was popped), the
`projectiles` string, the cross section, and the derived width appended
last. -/
def rowCells (projectiles : String) (cs : α) (point : String) (v0 v1 v2 v3 v4 v5 v6 v7 v8 v9 : α) :
    List (Cell α) :=
  [Cell.txt point, Cell.num v0, Cell.num v1, Cell.num v2, Cell.num v3, Cell.num v4,
   Cell.num v5, Cell.num v6, Cell.num v7, Cell.num v9,
   Cell.txt projectiles, Cell.num cs, widthCell v6 v8]

/-- Module-input call of one point with sampled row `[v0, …, v9]`. -/
def callSpec (projectiles outdir point : String) (cs : α) (v0 v1 v2 v3 v4 v5 v6 v7 v8 v9 : α) :
    ModuleCall α :=
  { outdir := outdir
    design_point_id := point
    projectile := projectiles
    target := projectiles
    sqrts := 2760
    inel_nucleon_cross_section := Cell.num cs
    trento_normalization := Cell.num v0
    trento_fluctuation_k := Cell.num v1
    trento_nucleon_width := Cell.num v2
    tau_R := Cell.num v3
    alpha := Cell.num v4
    eta_over_s_at_kink := Cell.num v5
    zeta_over_s_max := Cell.num v6
    zeta_over_s_width_in_GeV := widthCell v6 v8
    zeta_over_s_T_peak_in_GeV := Cell.num v7
    zeta_over_s_lambda_asymm := Cell.num v9 }

theorem processPoint_eval (projectiles outdir point : String) (v0 v1 v2 v3 v4 v5 v6 v7 v8 v9 : α) :
    processPoint designKeys projectiles 2760 outdir point [v0, v1, v2, v3, v4, v5, v6, v7, v8, v9] =
      Except.ok (callSpec projectiles outdir point (64/10) v0 v1 v2 v3 v4 v5 v6 v7 v8 v9,
        rowCells projectiles (64/10) point v0 v1 v2 v3 v4 v5 v6 v7 v8 v9) := rfl

end Field

theorem exists_len10 {β : Type} {l : List β} (h : l.length = 10) :
    ∃ v0 v1 v2 v3 v4 v5 v6 v7 v8 v9, l = [v0, v1, v2, v3, v4, v5, v6, v7, v8, v9] := by
  rcases l with _ | ⟨v0, _ | ⟨v1, _ | ⟨v2, _ | ⟨v3, _ | ⟨v4, _ | ⟨v5, _ | ⟨v6, _ |
    ⟨v7, _ | ⟨v8, _ | ⟨v9, _ | ⟨v10, t⟩⟩⟩⟩⟩⟩⟩⟩⟩⟩⟩ <;>
      simp only [List.length_cons, List.length_nil] at h <;> first
        | omega
        | exact ⟨v0, v1, v2, v3, v4, v5, v6, v7, v8, v9, rfl⟩

section Field

variable {α : Type} [LinearOrderedField α]

/-- Design-file line of one point, as a function of the `(name, row)`
pair. -/
def lineOf (projectiles : String) (pr : String × List α) : List (Cell α) :=
  rowCells projectiles (64/10) pr.1 (pr.2.getD 0 0) (pr.2.getD 1 0) (pr.2.getD 2 0)
    (pr.2.getD 3 0) (pr.2.getD 4 0) (pr.2.getD 5 0) (pr.2.getD 6 0) (pr.2.getD 7 0)
    (pr.2.getD 8 0) (pr.2.getD 9 0)

/-- Module-input call of one point, as a function of the `(name, row)`
pair. -/
def callOf (projectiles outdir : String) (pr : String × List α) : ModuleCall α :=
  callSpec projectiles outdir pr.1 (64/10) (pr.2.getD 0 0) (pr.2.getD 1 0) (pr.2.getD 2 0)
    (pr.2.getD 3 0) (pr.2.getD 4 0) (pr.2.getD 5 0) (pr.2.getD 6 0) (pr.2.getD 7 0)
    (pr.2.getD 8 0) (pr.2.getD 9 0)

theorem writeLoop_eval (projectiles outdir : String) (pts : List (String × List α))
    (h : ∀ pr ∈ pts, (pr.2).length = 10) :
    writeLoop designKeys projectiles 2760 outdir pts =
      (pts.map (lineOf projectiles), pts.map (callOf projectiles outdir), none) := by
  induction pts with
  | nil => rfl
  | cons pr rest ih =>
    obtain ⟨point, row⟩ := pr
    obtain ⟨v0, v1, v2, v3, v4, v5, v6, v7, v8, v9, rfl⟩ :=
      exists_len10 (h _ (List.mem_cons_self _ _))
    simp only [writeLoop, processPoint_eval,
      ih (fun pr hm => h pr (List.mem_cons_of_mem _ hm))]
    rfl

/-- Output directory string `basedir / self.type / self.system` of
`write_files` (source line 237). -/
def mkOutdir (sys : String × String × Int) (basedir : String) (validation : Bool) : String :=
  basedir ++ "/" ++ (if validation then "validation" else "main") ++ "/" ++
    (sys.1 ++ sys.2.1 ++ "-" ++ toString sys.2.2)

theorem generate_lhs_ok_shape {n d s : Int} {m : List (List α)}
    (h : generate_lhs n d s = Except.ok m) :
    m.length = n.toNat ∧ ∀ r ∈ m, r.length = d.toNat := by
  by_cases hc : 1 ≤ n ∧ 1 ≤ d
  · rw [generate_lhs, maximinLHS_R, if_pos hc] at h
    obtain rfl := (Except.ok.inj h).symm
    constructor
    · simp
    · intro r hr
      obtain ⟨i, hi, rfl⟩ := List.mem_map.mp hr
      simp
  · rw [generate_lhs, maximinLHS_R, if_neg hc] at h
    exact absurd h (by simp)

theorem designInitWith_err_lhs {a4min a4max : α} {sys : String × String × Int}
    {npts : Nat} {val : Bool} {seed : Option Int} {e : PyError} {d : DesignT α} :
    designInitWith a4min a4max sys npts val seed (Except.error e) ≠ Except.ok d := by
  unfold designInitWith
  cases h : normRangeTable (α := α) sys.2.2 <;> simp

theorem mkArray_row_length {a4min a4max : α} {m : List (List α)}
    (hm : ∀ u ∈ m, 10 ≤ u.length) :
    ∀ r ∈ mkArray a4min a4max m, r.length = 10 := by
  intro r hr
  obtain ⟨u, hu, rfl⟩ := List.mem_map.mp hr
  have h10 : 10 ≤ u.length := hm u hu
  simp [affineScale, List.length_zipWith, mkMins, mkMaxs, designRangeTable]
  omega

theorem mkArray_length (a4min a4max : α) (m : List (List α)) :
    (mkArray a4min a4max m).length = m.length := by
  simp [mkArray, affineScale]

/-- Destructuring of a successful call of the full constructor: the beam
energy is 2760 and the design is `mkDesign` applied to the modelled
sampler output, whose rows all have length 10 and whose row count is
`npoints`. -/
theorem designInit_ok_destruct {a4min a4max : α} {sys : String × String × Int}
    {npts : Nat} {val : Bool} {seed : Option Int} {d : DesignT α}
    (h : designInit a4min a4max sys npts val seed = Except.ok d) :
    sys.2.2 = 2760 ∧ ∃ m : List (List α), (∀ u ∈ m, u.length = 10) ∧ m.length = npts ∧
      d = mkDesign a4min a4max sys npts val seed m := by
  unfold designInit at h
  cases hg : generate_lhs (α := α) (npts : Int) 10 (designSeed seed val) with
  | error e => rw [hg] at h; exact absurd h designInitWith_err_lhs
  | ok m =>
    rw [hg] at h
    obtain ⟨h2760, rfl⟩ := designInitWith_ok_iff.mp h
    obtain ⟨hlen, hrow⟩ := generate_lhs_ok_shape hg
    exact ⟨h2760, m, fun u hu => hrow u hu, by simpa using hlen, rfl⟩

/-- Full evaluation of `write_files` on a successfully constructed design:
the loop completes with no exception, one design-file line per point after
the header, one collaborator call per point, and the range table written in
full. -/
theorem write_files_eval (a4min a4max : α) (sys : String × String × Int)
    (hsys : sys.2.2 = 2760) (npts : Nat) (val : Bool) (seed : Option Int)
    (m : List (List α)) (basedir : String) (hm : ∀ u ∈ m, 10 ≤ u.length) :
    write_files (mkDesign a4min a4max sys npts val seed m) basedir =
      { designLines := (Cell.txt "idx" :: designKeys.map Cell.txt) ::
          ((designPoints npts).zip (mkArray a4min a4max m)).map (lineOf sys.1)
        calls := ((designPoints npts).zip (mkArray a4min a4max m)).map
          (callOf sys.1 (mkOutdir sys basedir val))
        rangeHeader := some "param,min,max"
        rangeRows := List.zipWith (fun k p => (k, p.1, p.2)) designKeys
          (designRangeTable (10, 18) a4min a4max)
        err := none } := by
  have hrows : ∀ pr ∈ (designPoints npts).zip (mkArray a4min a4max m), (pr.2).length = 10 := by
    intro pr hpr
    exact mkArray_row_length hm pr.2 (List.of_mem_zip hpr).2
  simp only [write_files, mkDesign, mkOutdir, hsys]
  rw [writeLoop_eval sys.1 _ _ hrows]
  rfl

end Field

/-! ### Indexing lemmas for the scaled array -/

theorem getD_zipWith {β γ δ : Type} {f : β → γ → δ} {as : List β} {bs : List γ}
    {j : Nat} {x : β} {y : γ} {z : δ} (hja : j < as.length) (hjb : j < bs.length) :
    (List.zipWith f as bs).getD j z = f (as.getD j x) (bs.getD j y) := by
  induction as generalizing bs j with
  | nil => simp at hja
  | cons a as ih =>
    cases bs with
    | nil => simp at hjb
    | cons b bs =>
      cases j with
      | zero => rfl
      | succ j =>
        simp only [List.zipWith_cons_cons, List.getD_cons_succ]
        exact ih (by simpa using hja) (by simpa using hjb)

theorem getD_zip {β γ : Type} {as : List β} {bs : List γ} {j : Nat} {x : β} {y : γ}
    (hja : j < as.length) (hjb : j < bs.length) :
    (as.zip bs).getD j (x, y) = (as.getD j x, bs.getD j y) :=
  getD_zipWith (f := Prod.mk) hja hjb

theorem getD_map {β γ : Type} {f : β → γ} {l : List β} {j : Nat} {d : γ} {w : β}
    (hj : j < l.length) : (l.map f).getD j d = f (l.getD j w) := by
  induction l generalizing j with
  | nil => simp at hj
  | cons a l ih =>
    cases j with
    | zero => rfl
    | succ j =>
      simp only [List.map_cons, List.getD_cons_succ]
      exact ih (by simpa using hj)

section Field

variable {α : Type} [LinearOrderedField α]

theorem mkArray_getD {a4min a4max : α} {m : List (List α)} {i : Nat} (hi : i < m.length) :
    (mkArray a4min a4max m).getD i [] =
      List.zipWith (fun p u => p.1 + (p.2 - p.1) * u)
        ((mkMins a4min a4max).zip (mkMaxs a4min a4max)) (m.getD i []) := by
  unfold mkArray affineScale
  exact getD_map (w := []) hi

/-- Entry formula of the scaled array: for `j` below both 10 and the row
length, entry `(i, j)` is `min_j + (max_j - min_j) * u_{i j}`. -/
theorem mkArray_entry {a4min a4max : α} {m : List (List α)} {i j : Nat}
    (hi : i < m.length) (hj : j < 10) (hjr : j < (m.getD i []).length) :
    ((mkArray a4min a4max m).getD i []).getD j 0 =
      (mkMins a4min a4max).getD j 0 +
        ((mkMaxs a4min a4max).getD j 0 - (mkMins a4min a4max).getD j 0) *
          ((m.getD i []).getD j 0) := by
  rw [mkArray_getD hi]
  rw [getD_zipWith (x := ((0 : α), (0 : α))) (y := (0 : α))
    (show j < ((mkMins a4min a4max).zip (mkMaxs a4min a4max)).length from hj) hjr]
  rw [getD_zip (x := (0 : α)) (y := (0 : α))
    (show j < (mkMins a4min a4max).length from hj)
    (show j < (mkMaxs a4min a4max).length from hj)]

/-- Column bounds of the resolved parameter table: each minimum is at most
the corresponding maximum, provided the fourth-root endpoints are
ordered. -/
theorem mins_le_maxs {a4min a4max : α} (h4 : a4min ≤ a4max) :
    ∀ j, j < 10 → (mkMins a4min a4max).getD j 0 ≤ (mkMaxs a4min a4max).getD j 0 := by
  intro j hj
  interval_cases j
  · show (10 : α) ≤ 18
    norm_num
  · show (3/10 : α) ≤ 3
    norm_num
  · show (4/10 : α) ≤ 15/10
    norm_num
  · show (5/10 : α) ≤ 2
    norm_num
  · show (-(5/10) : α) ≤ 0
    norm_num
  · show (1/100 : α) ≤ 25/100
    norm_num
  · show (0 : α) ≤ 3/10
    norm_num
  · show (1/10 : α) ≤ 5/10
    norm_num
  · exact h4
  · show (-(8/10) : α) ≤ 8/10
    norm_num

theorem affine_bound {mn mx u : α} (hmn : mn ≤ mx) (h0 : 0 ≤ u) (h1 : u < 1) :
    mn ≤ mn + (mx - mn) * u ∧ mn + (mx - mn) * u ≤ mx := by
  have hnn : (0 : α) ≤ mx - mn := sub_nonneg.mpr hmn
  constructor
  · nlinarith
  · nlinarith

end Field

/-! ### Concrete instances used by the witness theorems -/

/-- Unit-cube sample with one point, every coordinate `0.5` (this is what
the modelled sampler returns for one point). -/
def sampleHalf : List (List ℚ) :=
  [[1/2, 1/2, 1/2, 1/2, 1/2, 1/2, 1/2, 1/2, 1/2, 1/2]]

/-- Concrete one-point Pb-Pb design at beam energy 2760 (the fourth-root
endpoints are instantiated at the rationals `1/10` and `1/5`). -/
def designPb : DesignT ℚ := mkDesign (1/10) (1/5) ("Pb", "Pb", 2760) 1 false none sampleHalf

theorem designPb_init :
    designInitWith (1/10 : ℚ) (1/5) ("Pb", "Pb", 2760) 1 false none (Except.ok sampleHalf) =
      Except.ok designPb :=
  designInitWith_ok_iff.mpr ⟨rfl, rfl⟩

theorem generate_lhs_one_point :
    generate_lhs (α := ℚ) ((1 : Nat) : Int) 10 (designSeed none false) =
      Except.ok sampleHalf := by
  norm_num [generate_lhs, maximinLHS_R, List.range_succ, sampleHalf]
  rfl

theorem designInit_Pb :
    designInit (α := ℚ) (1/10) (1/5) ("Pb", "Pb", 2760) 1 false none = Except.ok designPb := by
  rw [designInit, generate_lhs_one_point, designPb_init]

/-- Genuine values of the two fourth-root endpoints of
`zeta_over_s_area_fourth`: over the reals, `0.0002 ** 0.25` is
`sqrt (sqrt (2/10000))` and `(0.2*0.3) ** 0.25` is
`sqrt (sqrt ((2/10)*(3/10)))`; they are positive and ordered, so they
satisfy the hypotheses `0 < a4min` and `a4min ≤ a4max` of the theorems
below. -/
theorem area_fourth_endpoints_real :
    0 < Real.sqrt (Real.sqrt (2/10000)) ∧
    Real.sqrt (Real.sqrt (2/10000)) ≤ Real.sqrt (Real.sqrt ((2/10) * (3/10))) := by
  constructor
  · exact Real.sqrt_pos.mpr (Real.sqrt_pos.mpr (by norm_num))
  · exact Real.sqrt_le_sqrt (Real.sqrt_le_sqrt (by norm_num))

/-- Unit-cube sample with one point whose `zeta_over_s_max` coordinate
(column 6) is `0` — admissible for a sampler contract of entries in
`[0,1)` — and all other coordinates `0.5`. -/
def sampleZeta0 : List (List ℚ) :=
  [[1/2, 1/2, 1/2, 1/2, 1/2, 1/2, 0, 1/2, 1/2, 1/2]]

/-- Concrete one-point design whose sampled `zeta_over_s_max` value is
exactly `0`. -/
def designPbZ : DesignT ℚ := mkDesign (1/10) (1/5) ("Pb", "Pb", 2760) 1 false none sampleZeta0

theorem designPbZ_init :
    designInitWith (1/10 : ℚ) (1/5) ("Pb", "Pb", 2760) 1 false none (Except.ok sampleZeta0) =
      Except.ok designPbZ :=
  designInitWith_ok_iff.mpr ⟨rfl, rfl⟩

/-- Concrete one-point design for the asymmetric system
`('Pb', 'Au', 2760)`, whose declared target differs from its
projectile. -/
def designPbAu : DesignT ℚ := mkDesign (1/10) (1/5) ("Pb", "Au", 2760) 1 false none sampleHalf

theorem designInit_PbAu :
    designInit (α := ℚ) (1/10) (1/5) ("Pb", "Au", 2760) 1 false none =
      Except.ok designPbAu := by
  rw [designInit, generate_lhs_one_point]
  exact designInitWith_ok_iff.mpr ⟨rfl, rfl⟩

/-! ### Claim theorems -/

/-- C3: the sample generator called twice with identical
`(npoints, ndim, seed)` arguments pipes the identical script text to the R
process and returns the identical matrix: `generate_lhs` is a pure
function of its three arguments (the modelled R process is deterministic,
as the spec requires of it). -/
theorem c3_generate_lhs_deterministic {α : Type} [LinearOrderedField α]
    (n1 d1 s1 n2 d2 s2 : Int) (hn : n1 = n2) (hd : d1 = d2) (hs : s1 = s2) :
    rScript s1 n1 d1 = rScript s2 n2 d2 ∧
      generate_lhs (α := α) n1 d1 s1 = generate_lhs (α := α) n2 d2 s2 := by
  subst hn; subst hd; subst hs; exact ⟨rfl, rfl⟩

/-- Witness for C3 at `(npoints, ndim, seed) = (5, 10, 7)`. -/
theorem c3_generate_lhs_deterministic_witness :
    rScript 7 5 10 = rScript 7 5 10 ∧
      generate_lhs (α := ℚ) 5 10 7 = generate_lhs (α := ℚ) 5 10 7 :=
  c3_generate_lhs_deterministic 5 10 7 5 10 7 rfl rfl rfl

/-- C4: every entry of the design array is the affine image
`floor_j + (max_j - floor_j) * u` of the corresponding unit-sample entry,
where the sampling floor equals the range minimum (the per-parameter
floor overrides of source lines 183–189 are commented out, so no override
is active); consequently every scaled value with a unit-sample entry in
`[0,1)` lies between the column minimum and maximum.  The hypothesis
`a4min ≤ a4max` is satisfied by the genuine fourth-root endpoints (lemma
`area_fourth_endpoints_real`). -/
theorem c4_affine_scaling_bounds {α : Type} [LinearOrderedField α]
    (a4min a4max : α) (h4 : a4min ≤ a4max) (sys : String × String × Int) (npts : Nat)
    (val : Bool) (seed : Option Int) (m : List (List α)) (d : DesignT α)
    (hd : designInitWith a4min a4max sys npts val seed (Except.ok m) = Except.ok d) :
    (∀ i j, i < m.length → j < 10 → j < (m.getD i []).length →
      (d.array.getD i []).getD j 0 =
        d.min.getD j 0 + (d.max.getD j 0 - d.min.getD j 0) * ((m.getD i []).getD j 0)) ∧
    (∀ i j, i < m.length → j < 10 → j < (m.getD i []).length →
      0 ≤ (m.getD i []).getD j 0 → (m.getD i []).getD j 0 < 1 →
      d.min.getD j 0 ≤ (d.array.getD i []).getD j 0 ∧
      (d.array.getD i []).getD j 0 ≤ d.max.getD j 0) := by
  obtain ⟨h2760, rfl⟩ := designInitWith_ok_iff.mp hd
  have hfor : ∀ i j, i < m.length → j < 10 → j < (m.getD i []).length →
      ((mkDesign a4min a4max sys npts val seed m).array.getD i []).getD j 0 =
        (mkMins a4min a4max).getD j 0 +
          ((mkMaxs a4min a4max).getD j 0 - (mkMins a4min a4max).getD j 0) *
            ((m.getD i []).getD j 0) :=
    fun i j hi hj hjr => mkArray_entry hi hj hjr
  refine ⟨hfor, fun i j hi hj hjr h0 h1 => ?_⟩
  rw [show (mkDesign a4min a4max sys npts val seed m).min = mkMins a4min a4max from rfl,
    show (mkDesign a4min a4max sys npts val seed m).max = mkMaxs a4min a4max from rfl,
    hfor i j hi hj hjr]
  exact affine_bound (mins_le_maxs h4 j hj) h0 h1

/-- Witness for C4 on the concrete design (unit-sample entry `1/2` in
column 0 of point 0): the scaled `norm` value lies between 10 and 18 and
equals the affine image of `1/2`. -/
theorem c4_affine_scaling_bounds_witness :
    ((designPb.array.getD 0 []).getD 0 0 =
      designPb.min.getD 0 0 +
        (designPb.max.getD 0 0 - designPb.min.getD 0 0) *
          ((sampleHalf.getD 0 []).getD 0 0)) ∧
    designPb.min.getD 0 0 ≤ (designPb.array.getD 0 []).getD 0 0 ∧
    (designPb.array.getD 0 []).getD 0 0 ≤ designPb.max.getD 0 0 :=
  ⟨(c4_affine_scaling_bounds (1/10) (1/5) (by norm_num) ("Pb", "Pb", 2760) 1 false none
      sampleHalf designPb designPb_init).1 0 0 (by decide) (by decide) (by decide),
   (c4_affine_scaling_bounds (1/10) (1/5) (by norm_num) ("Pb", "Pb", 2760) 1 false none
      sampleHalf designPb designPb_init).2 0 0 (by decide) (by decide) (by decide)
      (by norm_num [sampleHalf]) (by norm_num [sampleHalf])⟩

/-- C5: constructing a Design for a system whose beam energy is missing
from the norm-range table raises `KeyError(beam_energy)` — a fatal
configuration error, whatever the sampler would return — and for the one
recognized beam energy the first parameter (`norm`) has the table entry
`(10, 18)` as its range. -/
theorem c5_norm_range_selection {α : Type} [LinearOrderedField α]
    (a4min a4max : α) (sys : String × String × Int) (npts : Nat) (val : Bool)
    (seed : Option Int) :
    (sys.2.2 ≠ 2760 → normRangeTable (α := α) sys.2.2 = none ∧
      ∀ lhsRes, designInitWith a4min a4max sys npts val seed lhsRes =
        Except.error (PyError.keyError sys.2.2)) ∧
    (∀ m d, designInitWith a4min a4max sys npts val seed (Except.ok m) = Except.ok d →
      normRangeTable (α := α) sys.2.2 = some (10, 18) ∧
      d.keys.head? = some "norm" ∧ d.range.head? = some (10, 18)) := by
  constructor
  · intro h
    exact ⟨by simp [normRangeTable, h], fun lhsRes => designInitWith_err_of_bad_energy _ h⟩
  · intro m d hd
    obtain ⟨h2760, rfl⟩ := designInitWith_ok_iff.mp hd
    exact ⟨by simp [normRangeTable, h2760], rfl, rfl⟩

/-- Witness for C5: beam energy 5020 (present in the cross-section table
but removed from the norm-range table) is rejected; beam energy 2760
yields `norm` with range `(10, 18)`. -/
theorem c5_norm_range_selection_witness :
    designInitWith (1/10 : ℚ) (1/5) ("Pb", "Pb", 5020) 1 false none (Except.ok sampleHalf) =
      Except.error (PyError.keyError 5020) ∧
    designPb.keys.head? = some "norm" ∧ designPb.range.head? = some (10, 18) :=
  ⟨((c5_norm_range_selection (1/10 : ℚ) (1/5) ("Pb", "Pb", 5020) 1 false none).1
      (by decide)).2 (Except.ok sampleHalf),
   ((c5_norm_range_selection (1/10 : ℚ) (1/5) ("Pb", "Pb", 2760) 1 false none).2
      sampleHalf designPb designPb_init).2⟩

/-- C6 counterexample: at the concrete invalid inputs
`(npoints, ndim) = (0, 3)` and `(-1, 7)` the raised error is the same
`CalledProcessError(['R', '--slave'], 1)` value, carrying only the command
and the exit status: contrary to the claim, the error does not report the
offending `npoints`/`ndim` values (two different offending inputs raise
the identical error object). -/
theorem c6_cex :
    generate_lhs (α := ℚ) 0 3 5 =
      Except.error (PyError.calledProcessError ["R", "--slave"] 1) ∧
    generate_lhs (α := ℚ) (-1) 7 99 =
      Except.error (PyError.calledProcessError ["R", "--slave"] 1) ∧
    ((0 : Int), (3 : Int)) ≠ ((-1 : Int), (7 : Int)) :=
  ⟨rfl, rfl, by decide⟩

/-- C6 amended: for `npoints ≤ 0` or `ndim ≤ 0` the call is fatal — the
Python code performs no validation, the R process fails, and `check=True`
raises `CalledProcessError(['R', '--slave'], 1)` — and no output matrix is
produced; but the error names only the command and exit status, the same
value for every invalid input, not the offending `npoints`/`ndim`. -/
theorem c6_invalid_input_error {α : Type} [LinearOrderedField α]
    (npoints ndim seed : Int) (h : npoints ≤ 0 ∨ ndim ≤ 0) :
    generate_lhs (α := α) npoints ndim seed =
      Except.error (PyError.calledProcessError ["R", "--slave"] 1) := by
  have hbad : ¬(1 ≤ npoints ∧ 1 ≤ ndim) := by omega
  simp [generate_lhs, maximinLHS_R, hbad]

/-- Witness for C6 amended at `(npoints, ndim, seed) = (0, 3, 5)`. -/
theorem c6_invalid_input_error_witness :
    generate_lhs (α := ℚ) 0 3 5 =
      Except.error (PyError.calledProcessError ["R", "--slave"] 1) :=
  c6_invalid_input_error 0 3 5 (Or.inl (by decide))

/-- C1 counterexample: on the concrete one-point design the header line
has 11 fields (`idx` plus the 10 sampled keys, including
`zeta_over_s_area_fourth`) while the data line has 13 fields — so the
data line does not contain exactly one value per header key; moreover the
derived key `zeta_over_s_width_in_GeV` is absent from the header even
though its value is written in the data line, while
`zeta_over_s_area_fourth` is a header key whose value is popped and never
written. -/
theorem c1_cex :
    (write_files designPb "inputs").designLines.map List.length = [11, 13] ∧
    (11 : Nat) ≠ 13 ∧
    "zeta_over_s_width_in_GeV" ∉ designKeys ∧
    "zeta_over_s_area_fourth" ∈ designKeys :=
  ⟨rfl, by decide, by decide, by decide⟩

/-- C1 amended: the header row is `idx` followed by the sampled
ParameterSpace keys only (derived keys are not included); each data row is
the point id followed by one value per key of the final keyword
dictionary in insertion order — the sampled values except the popped
`zeta_over_s_area_fourth`, then the `projectiles` string, the cross
section, and the derived `zeta_over_s_width_in_GeV` last — so data rows
have two more fields than the header and the columns after
`zeta_over_s_T_peak_in_GeV` are misaligned with the header. -/
theorem c1_design_table_layout {α : Type} [LinearOrderedField α]
    (a4min a4max : α) (sys : String × String × Int) (npts : Nat) (val : Bool)
    (seed : Option Int) (d : DesignT α) (basedir : String)
    (h : designInit a4min a4max sys npts val seed = Except.ok d) :
    (write_files d basedir).designLines.head? =
      some (Cell.txt "idx" :: designKeys.map Cell.txt) ∧
    (write_files d basedir).designLines.tail =
      (d.points.zip d.array).map (lineOf d.projectiles) ∧
    (∀ pr ∈ d.points.zip d.array,
      lineOf (α := α) d.projectiles pr =
        Cell.txt pr.1 :: ((pr.2.take 8).map Cell.num ++
          [Cell.num (pr.2.getD 9 0), Cell.txt d.projectiles, Cell.num (64/10),
           widthCell (pr.2.getD 6 0) (pr.2.getD 8 0)])) ∧
    (∀ line ∈ (write_files d basedir).designLines.tail,
      line.length = (Cell.txt "idx" :: designKeys.map Cell.txt : List (Cell α)).length + 2) := by
  obtain ⟨h2760, m, hrow, hlen, rfl⟩ := designInit_ok_destruct h
  have hm : ∀ u ∈ m, 10 ≤ u.length := fun u hu => le_of_eq (hrow u hu).symm
  rw [write_files_eval a4min a4max sys h2760 npts val seed m basedir hm]
  have hmem : ∀ pr ∈ ((designPoints npts).zip (mkArray a4min a4max m)),
      lineOf (α := α) sys.1 pr =
        Cell.txt pr.1 :: ((pr.2.take 8).map Cell.num ++
          [Cell.num (pr.2.getD 9 0), Cell.txt sys.1, Cell.num (64/10),
           widthCell (pr.2.getD 6 0) (pr.2.getD 8 0)]) := by
    intro pr hpr
    obtain ⟨v0, v1, v2, v3, v4, v5, v6, v7, v8, v9, hv⟩ :=
      exists_len10 (mkArray_row_length hm pr.2 (List.of_mem_zip hpr).2)
    obtain ⟨pt, r⟩ := pr
    obtain rfl : r = _ := hv
    rfl
  refine ⟨rfl, rfl, hmem, ?_⟩
  intro line hline
  obtain ⟨pr, hpr, rfl⟩ := List.mem_map.mp hline
  rw [hmem pr hpr]
  obtain ⟨v0, v1, v2, v3, v4, v5, v6, v7, v8, v9, hv⟩ :=
    exists_len10 (mkArray_row_length hm pr.2 (List.of_mem_zip hpr).2)
  obtain ⟨pt, r⟩ := pr
  obtain rfl : r = _ := hv
  rfl

/-- Witness for C1 amended on the concrete one-point design. -/
theorem c1_design_table_layout_witness :
    (write_files designPb "inputs").designLines.head? =
      some (Cell.txt "idx" :: designKeys.map Cell.txt) ∧
    (write_files designPb "inputs").designLines.tail =
      (designPb.points.zip designPb.array).map (lineOf designPb.projectiles) :=
  ⟨(c1_design_table_layout (1/10) (1/5) ("Pb", "Pb", 2760) 1 false none designPb
      "inputs" designInit_Pb).1,
   (c1_design_table_layout (1/10) (1/5) ("Pb", "Pb", 2760) 1 false none designPb
      "inputs" designInit_Pb).2.1⟩

/-- C2: the only configuration error that a Design run can raise is the
norm-range `KeyError` of `__init__`, raised before the sampler result is
even examined and before any file is touched (no Design object exists, so
`write_files` is never reached: no partial artifact).  The beam-energy →
cross-section lookup inside `write_files` sits after sampling and after
the manifest header is written, but it can never fail on a constructed
Design: every beam energy accepted by `__init__` (only 2760) is a key of
the cross-section table, so `write_files` completes the design-point
manifest and the range manifest with no exception. -/
theorem c2_config_errors_before_sampling {α : Type} [LinearOrderedField α] :
    (∀ (a4min a4max : α) (sys : String × String × Int) (npts : Nat) (val : Bool)
        (seed : Option Int) (lhsRes : Except PyError (List (List α))),
      normRangeTable (α := α) sys.2.2 = none →
      designInitWith a4min a4max sys npts val seed lhsRes =
        Except.error (PyError.keyError sys.2.2)) ∧
    (∀ (a4min a4max : α) (sys : String × String × Int) (npts : Nat) (val : Bool)
        (seed : Option Int) (d : DesignT α) (basedir : String),
      designInit a4min a4max sys npts val seed = Except.ok d →
      crossSectionTable (α := α) d.beam_energy = some (64/10) ∧
      (write_files d basedir).err = none ∧
      (write_files d basedir).designLines.length = d.points.length + 1 ∧
      (write_files d basedir).rangeHeader = some "param,min,max") := by
  constructor
  · intro a4min a4max sys npts val seed lhsRes hn
    have h : sys.2.2 ≠ 2760 := by
      intro h2760
      rw [normRangeTable, if_pos h2760] at hn
      exact Option.noConfusion hn
    exact designInitWith_err_of_bad_energy _ h
  · intro a4min a4max sys npts val seed d basedir hd
    obtain ⟨h2760, m, hrow, hlen, rfl⟩ := designInit_ok_destruct hd
    have hm : ∀ u ∈ m, 10 ≤ u.length := fun u hu => le_of_eq (hrow u hu).symm
    rw [write_files_eval a4min a4max sys h2760 npts val seed m basedir hm]
    refine ⟨by rw [show (mkDesign a4min a4max sys npts val seed m).beam_energy = 2760
      from h2760]; rfl, rfl, ?_, rfl⟩
    show (((designPoints npts).zip (mkArray a4min a4max m)).map _).length + 1 = _
    simp [designPoints, mkArray_length, hlen, mkDesign]

/-- Witness for C2: beam energy 5020 is rejected by the constructor with
`KeyError(5020)` whatever the sampler would return, and the concrete
constructed design writes its files to completion with no exception. -/
theorem c2_config_errors_before_sampling_witness :
    designInitWith (1/10 : ℚ) (1/5) ("Pb", "Pb", 5020) 1 false none (Except.ok sampleHalf) =
      Except.error (PyError.keyError 5020) ∧
    (write_files designPb "inputs").err = none ∧
    (write_files designPb "inputs").rangeHeader = some "param,min,max" :=
  ⟨(c2_config_errors_before_sampling (α := ℚ)).1 (1/10) (1/5) ("Pb", "Pb", 5020) 1 false
      none (Except.ok sampleHalf) rfl,
   ((c2_config_errors_before_sampling (α := ℚ)).2 (1/10) (1/5) ("Pb", "Pb", 2760) 1 false
      none designPb "inputs" designInit_Pb).2.1,
   ((c2_config_errors_before_sampling (α := ℚ)).2 (1/10) (1/5) ("Pb", "Pb", 2760) 1 false
      none designPb "inputs" designInit_Pb).2.2.2⟩

/-- C7: for a constructed Design, the range manifest has header
`param,min,max` and exactly one row per parameter key, and row `i` holds
the key together with exactly the pair stored in the ParameterSpace range
list (the written values are the range values themselves; Python float
`str` formatting round-trips exactly, so equality of the stored values is
the faithful statement of the round-trip). -/
theorem c7_range_manifest_roundtrip {α : Type} [LinearOrderedField α]
    (a4min a4max : α) (sys : String × String × Int) (npts : Nat) (val : Bool)
    (seed : Option Int) (d : DesignT α) (basedir : String)
    (h : designInit a4min a4max sys npts val seed = Except.ok d) :
    (write_files d basedir).rangeHeader = some "param,min,max" ∧
    (write_files d basedir).rangeRows.length = d.keys.length ∧
    (∀ i, i < d.keys.length →
      (write_files d basedir).rangeRows.getD i ("", 0, 0) =
        (d.keys.getD i "", (d.range.getD i (0, 0)).1, (d.range.getD i (0, 0)).2)) := by
  obtain ⟨h2760, m, hrow, hlen, rfl⟩ := designInit_ok_destruct h
  have hm : ∀ u ∈ m, 10 ≤ u.length := fun u hu => le_of_eq (hrow u hu).symm
  rw [write_files_eval a4min a4max sys h2760 npts val seed m basedir hm]
  refine ⟨rfl, rfl, ?_⟩
  intro i hi
  have hi10 : i < 10 := hi
  interval_cases i <;> rfl

/-- Witness for C7 on the concrete design: header plus the first and last
range rows, which carry exactly the `norm` and `zeta_over_s_lambda_asymm`
range pairs. -/
theorem c7_range_manifest_roundtrip_witness :
    (write_files designPb "inputs").rangeHeader = some "param,min,max" ∧
    (write_files designPb "inputs").rangeRows.getD 0 ("", 0, 0) = ("norm", 10, 18) ∧
    (write_files designPb "inputs").rangeRows.getD 9 ("", 0, 0) =
      ("zeta_over_s_lambda_asymm", -(8/10), 8/10) :=
  ⟨(c7_range_manifest_roundtrip (1/10) (1/5) ("Pb", "Pb", 2760) 1 false none designPb
      "inputs" designInit_Pb).1,
   ((c7_range_manifest_roundtrip (1/10) (1/5) ("Pb", "Pb", 2760) 1 false none designPb
      "inputs" designInit_Pb).2.2 0 (by decide)).trans rfl,
   ((c7_range_manifest_roundtrip (1/10) (1/5) ("Pb", "Pb", 2760) 1 false none designPb
      "inputs" designInit_Pb).2.2 9 (by decide)).trans rfl⟩

/-- C8: with no caller-supplied seed the main design uses the fixed
constant `450829120` and the validation design the distinct fixed constant
`751783496`; a caller-supplied seed overrides the default in both cases;
and a constructed Design records exactly the resolved seed. -/
theorem c8_default_seeds {α : Type} [LinearOrderedField α] :
    designSeed none false = 450829120 ∧
    designSeed none true = 751783496 ∧
    (450829120 : Int) ≠ 751783496 ∧
    (∀ (s : Int) (v : Bool), designSeed (some s) v = s) ∧
    (∀ (a4min a4max : α) sys npts val seed m (d : DesignT α),
      designInitWith a4min a4max sys npts val seed (Except.ok m) = Except.ok d →
      d.seed = designSeed seed val) := by
  refine ⟨rfl, rfl, by decide, fun s v => rfl, fun a4min a4max sys npts val seed m d hd => ?_⟩
  obtain ⟨-, rfl⟩ := designInitWith_ok_iff.mp hd
  rfl

/-- Witness for C8: the concrete main design built with no caller seed
records seed `450829120`, distinct from the validation default. -/
theorem c8_default_seeds_witness :
    designPb.seed = designSeed none false ∧ designSeed none false = 450829120 ∧
    designSeed none true = 751783496 :=
  ⟨(c8_default_seeds (α := ℚ)).2.2.2.2 (1/10) (1/5) ("Pb", "Pb", 2760) 1 false none
      sampleHalf designPb designPb_init,
   (c8_default_seeds (α := ℚ)).1, (c8_default_seeds (α := ℚ)).2.1⟩

/-- C9 counterexample: the zero-divisor sample `sampleZeta0` is admissible
(all entries in `[0,1)`) and makes the scaled `zeta_over_s_max` value
exactly `0`, yet `write_files` does not raise a division-by-zero error
partway through the design-point file: the loop finishes with no
exception, both lines (header and the single data line) are written, and
the width cell written in the data line is the non-finite value `inf`
(numpy float64 division by zero warns and yields `inf`; it does not
raise). -/
theorem c9_cex :
    (∀ r ∈ sampleZeta0, ∀ u ∈ r, 0 ≤ u ∧ u < 1) ∧
    (sampleZeta0.getD 0 []).getD 6 0 = 0 ∧
    (designPbZ.array.getD 0 []).getD 6 0 = 0 ∧
    (write_files designPbZ "inputs").err = none ∧
    (write_files designPbZ "inputs").designLines.length = 2 ∧
    ((write_files designPbZ "inputs").designLines.getD 1 []).getD 12 Cell.nan =
      Cell.posInf := by
  refine ⟨?_, rfl, ?_, rfl, rfl, ?_⟩
  · intro r hr u hu
    fin_cases hr
    fin_cases hu <;> norm_num
  · show (0 : ℚ) + (3/10 - 0) * 0 = 0
    norm_num
  · show npDiv (2 / (3141592/1000000 : ℚ) * (1/10 + (1/5 - 1/10) * (1/2)) ^ 4)
      (0 + (3/10 - 0) * 0) = Cell.posInf
    rw [npDiv, if_pos (by norm_num : (0 : ℚ) + (3/10 - 0) * 0 = 0),
      if_pos (by norm_num : (0 : ℚ) < 2 / (3141592/1000000 : ℚ) *
        (1/10 + (1/5 - 1/10) * (1/2)) ^ 4)]

/-- C9 amended: the derived `zeta_over_s_width_in_GeV` computation divides
by the sampled `zeta_over_s_max` value with no guard, and a unit-sample
entry `0` in that column (admissible under the spec contract `[0,1)`)
makes the divisor exactly `0` (the column range is `(0.0, 0.3)`); but
because the operands are numpy float64 scalars the division yields `inf`
instead of raising, so `write_files` completes — writing a non-finite
width value into the design-point file — rather than failing partway
through. -/
theorem c9_zeta_width_unguarded_division {α : Type} [LinearOrderedField α]
    (a4min a4max : α) (hpos : 0 < a4min) (h4 : a4min ≤ a4max)
    (sys : String × String × Int) (npts : Nat) (val : Bool) (seed : Option Int)
    (m : List (List α)) (d : DesignT α) (basedir : String)
    (hd : designInitWith a4min a4max sys npts val seed (Except.ok m) = Except.ok d)
    (hrow : ∀ u ∈ m, u.length = 10)
    (i : Nat) (hi : i < m.length) (hin : i < npts)
    (hz : (m.getD i []).getD 6 0 = 0) (h8 : 0 ≤ (m.getD i []).getD 8 0) :
    (d.array.getD i []).getD 6 0 = 0 ∧
    (write_files d basedir).err = none ∧
    ((write_files d basedir).designLines.getD (i + 1) []).getD 12 Cell.nan =
      Cell.posInf := by
  obtain ⟨h2760, rfl⟩ := designInitWith_ok_iff.mp hd
  have hm : ∀ u ∈ m, 10 ≤ u.length := fun u hu => le_of_eq (hrow u hu).symm
  have hmem : m.getD i [] ∈ m := by
    rw [List.getD_eq_getElem?_getD, List.getElem?_eq_getElem hi]
    exact List.getElem_mem hi
  have hrl : (m.getD i []).length = 10 := hrow _ hmem
  have h6 : ((mkArray a4min a4max m).getD i []).getD 6 0 = 0 := by
    rw [mkArray_entry hi (by omega) (by omega), hz]
    show (0 : α) + ((3/10 : α) - 0) * 0 = 0
    norm_num
  have h8v : 0 < ((mkArray a4min a4max m).getD i []).getD 8 0 := by
    rw [mkArray_entry hi (by omega) (by omega)]
    show 0 < a4min + (a4max - a4min) * ((m.getD i []).getD 8 0)
    have : 0 ≤ (a4max - a4min) * ((m.getD i []).getD 8 0) :=
      mul_nonneg (sub_nonneg.mpr h4) h8
    linarith
  refine ⟨h6, ?_, ?_⟩ <;>
    rw [write_files_eval a4min a4max sys h2760 npts val seed m basedir hm]
  show ((((designPoints npts).zip (mkArray a4min a4max m)).map
      (lineOf sys.1)).getD i []).getD 12 Cell.nan = Cell.posInf
  have hiz : i < ((designPoints npts).zip (mkArray a4min a4max m)).length := by
    rw [List.length_zip]
    simp only [designPoints, List.length_map, List.length_range, mkArray_length]
    omega
  rw [getD_map (w := ("", [])) hiz]
  rw [show ((designPoints npts).zip (mkArray a4min a4max m)).getD i ("", []) =
      ((designPoints npts).getD i "", (mkArray a4min a4max m).getD i []) from
    getD_zip (by simpa [designPoints] using hin) (by rw [mkArray_length]; exact hi)]
  show widthCell (((mkArray a4min a4max m).getD i []).getD 6 0)
    (((mkArray a4min a4max m).getD i []).getD 8 0) = Cell.posInf
  rw [widthCell, h6, npDiv, if_pos rfl, if_pos]
  have hc : (0 : α) < 2 / (3141592/1000000 : α) := by norm_num
  exact mul_pos hc (pow_pos h8v 4)

/-- Witness for C9 amended on the concrete zero-divisor design. -/
theorem c9_zeta_width_unguarded_division_witness :
    (designPbZ.array.getD 0 []).getD 6 0 = 0 ∧
    (write_files designPbZ "wd").err = none ∧
    ((write_files designPbZ "wd").designLines.getD 1 []).getD 12 Cell.nan =
      Cell.posInf :=
  c9_zeta_width_unguarded_division (1/10) (1/5) (by norm_num) (by norm_num)
    ("Pb", "Pb", 2760) 1 false none sampleZeta0 designPbZ "wd" designPbZ_init
    (by decide) 0 (by decide) (by decide) rfl (by norm_num [sampleZeta0])

/-- C10: for every design point, the `target` argument handed to the
external module-input writer equals the system projectile identifier
(`self.projectiles`); when the declared target component differs from the
projectile, the passed `target` is not the declared target; and the
parsed `target` field is never used — replacing it changes nothing in the
output of `write_files`. -/
theorem c10_target_is_projectiles {α : Type} [LinearOrderedField α]
    (a4min a4max : α) (sys : String × String × Int) (npts : Nat) (val : Bool)
    (seed : Option Int) (d : DesignT α) (basedir : String)
    (h : designInit a4min a4max sys npts val seed = Except.ok d) :
    (∀ c ∈ (write_files d basedir).calls,
      c.target = d.projectiles ∧ c.projectile = d.projectiles) ∧
    (sys.1 ≠ sys.2.1 →
      ∀ c ∈ (write_files d basedir).calls, c.target ≠ d.target) ∧
    (∀ t, write_files { d with target := t } basedir = write_files d basedir) := by
  obtain ⟨h2760, m, hrow, hlen, rfl⟩ := designInit_ok_destruct h
  have hm : ∀ u ∈ m, 10 ≤ u.length := fun u hu => le_of_eq (hrow u hu).symm
  have hc : ∀ c ∈ (write_files (mkDesign a4min a4max sys npts val seed m) basedir).calls,
      c.target = sys.1 ∧ c.projectile = sys.1 := by
    rw [write_files_eval a4min a4max sys h2760 npts val seed m basedir hm]
    intro c hc
    obtain ⟨pr, hpr, rfl⟩ := List.mem_map.mp hc
    exact ⟨rfl, rfl⟩
  refine ⟨fun c hcc => hc c hcc, fun hne c hcc => ?_, fun t => rfl⟩
  rw [(hc c hcc).1]
  exact hne

/-- Witness for C10: on the concrete Pb–Au design (projectile `Pb`,
declared target `Au`) replacing the stored target field leaves
`write_files` unchanged, and the projectile and target strings differ. -/
theorem c10_target_is_projectiles_witness :
    write_files { designPbAu with target := "X" } "inputs" =
      write_files designPbAu "inputs" ∧
    ("Pb" : String) ≠ "Au" :=
  ⟨(c10_target_is_projectiles (1/10) (1/5) ("Pb", "Au", 2760) 1 false none designPbAu
      "inputs" designInit_PbAu).2.2 "X",
   by decide⟩

end DesignPy
